import Mathlib

set_option maxRecDepth 100000

/- Shallow embedding of the Discord voice client core (discord-mcp).

   Embedded source units:
   * src/audioEncodingWorker.ts  — RTP framing, xsalsa20_poly1305_lite seal
   * src/audioDecodingWorker.ts  — RTP parse, open, extension strip, Opus stage
   * src/threadedWebrtcVoiceHandler.ts — UDP receive handler, playAudio frame
     loop, direct-transmission pacer, speaking flag
   * audioBufferManager (AudioBufferManager) — per-speaker PCM buffer

   Bytes are modelled as Nat and Node Buffers as List Nat.  The external
   Opus codec (node-opus / discordjs-opus) is an oracle parameter; the
   tweetnacl secretbox primitive is idealized (see secretbox below). -/

/-- Error message used by the modelled Node Buffer bounds checks. -/
def rangeErrMsg : String := "value out of range"

/-- Message thrown by the decode worker when nacl.secretbox.open fails. -/
def decryptErrMsg : String := "Failed to decrypt voice audio data"

/-- Buffer.readUInt16BE at an offset.  Every call site in the embedded code
guards the buffer length first, so the default-0 read is never exercised. -/
def readU16BE (l : List Nat) (off : Nat) : Nat :=
  l.getD off 0 * 256 + l.getD (off + 1) 0

/-- Buffer.readUInt32BE at an offset. -/
def readU32BE (l : List Nat) (off : Nat) : Nat :=
  l.getD off 0 * 16777216 + l.getD (off + 1) 0 * 65536 +
    l.getD (off + 2) 0 * 256 + l.getD (off + 3) 0

/-- Buffer.writeUInt16BE: Node validates the value and throws ERR_OUT_OF_RANGE
for values outside the unsigned 16-bit range; modelled with Except. -/
def writeUInt16BE (v : Nat) : Except String (List Nat) :=
  if v < 65536 then Except.ok [v / 256, v % 256] else Except.error rangeErrMsg

/-- Buffer.writeUInt32BE with Node's unsigned 32-bit range check. -/
def writeUInt32BE (v : Nat) : Except String (List Nat) :=
  if v < 4294967296 then
    Except.ok [v / 16777216, v / 65536 % 256, v / 256 % 256, v % 256]
  else Except.error rangeErrMsg

/-- Pack a byte list two bytes per element (big-endian pairs).  Used by the
idealized authentication tag to store the 24-byte nonce in 12 elements. -/
def pack2 : List Nat → List Nat
  | a :: b :: rest => (a * 256 + b) :: pack2 rest
  | [a] => [a * 256]
  | [] => []

/-- Idealized key/message digest for the modelled authentication tag. -/
def khash (key msg : List Nat) : Nat :=
  (key ++ msg).foldl (fun a b => (a * 313 + b + 7) % 4294967296) 1

/-- Idealized 16-element authentication tag binding key, nonce and message. -/
def tag16 (key nonce msg : List Nat) : List Nat :=
  pack2 nonce ++ [khash key msg, 0, 0, 0]

/-- Idealized model of tweetnacl nacl.secretbox.  The real primitive produces
a 16-byte Poly1305 tag followed by the XSalsa20 stream encryption of the
message; the model keeps the message in the clear behind a 16-element tag
that binds the key and the full 24-byte nonce, so that ciphertext length is
message length + 16 and opening succeeds exactly under the sealing key and
nonce (authentication idealized as perfect). -/
def secretbox (msg nonce key : List Nat) : List Nat :=
  tag16 key nonce msg ++ msg

/-- Idealized model of nacl.secretbox.open: succeeds iff the ciphertext
carries a tag for this key and nonce over its body. -/
def secretboxOpen (ct nonce key : List Nat) : Option (List Nat) :=
  if ct.length < 16 then none
  else if ct.take 16 = tag16 key nonce (ct.drop 16) then some (ct.drop 16)
  else none

/-- Extension-element skip loop of extractOpusFromRTP
(audioDecodingWorker.ts lines 36-39): runs rtpHLen times while the offset is
in range, advancing by ((byte and 0xF) + 1) * 4 each step. -/
def skipSubs (data : List Nat) : Nat → Nat → Nat
  | 0, offset => offset
  | i + 1, offset =>
      if offset < data.length then
        skipSubs data i (offset + ((data.getD offset 0 &&& 15) + 1) * 4)
      else offset

/-- Zero-padding skip of extractOpusFromRTP (lines 42-44), expressed as the
count of leading zero bytes from the current offset. -/
def countZeros : List Nat → Nat
  | [] => 0
  | b :: bs => if b = 0 then countZeros bs + 1 else 0

/-- extractOpusFromRTP (audioDecodingWorker.ts lines 25-50): strip a leading
0xBEDE one-byte RTP header extension, then any zero padding. -/
def extractOpusFromRTP (opusData : List Nat) : List Nat :=
  if opusData.length = 0 then opusData
  else if 4 < opusData.length ∧ opusData.getD 0 0 = 190 ∧ opusData.getD 1 0 = 222 then
    let rtpHLen := readU16BE opusData 2
    let offset1 := skipSubs opusData rtpHLen 4
    let offset2 := offset1 + countZeros (opusData.drop offset1)
    opusData.drop offset2
  else opusData

/-- Result of one decode-worker message: pcm is some on a posted decoded
frame and none when the worker posts an error; decoderArg records the exact
buffer handed to opusDecoder.decode, if the decoder was invoked at all. -/
structure DecodeOutcome where
  pcm : Option (List Nat)
  sequence : Nat
  timestamp : Nat
  decoderArg : Option (List Nat)
deriving DecidableEq

/-- Cipher mode string selected by the voice handler when available. -/
def liteModeName : String := "xsalsa20_poly1305_lite"

/-- Fallback mode string of threadedWebrtcVoiceHandler.ts line 138. -/
def plainModeName : String := "plain"

/-- Receive nonce of audioDecodingWorker.ts lines 138-144: the first 12
packet bytes, then the 4-byte packet tail, then 8 zero bytes. -/
def rtpNonce (packet : List Nat) : List Nat :=
  packet.take 12 ++ packet.drop (packet.length - 4) ++ List.replicate 8 0

/-- Ciphertext region of a lite-mode packet: Buffer.slice(12, -4). -/
def rtpCiphertext (packet : List Nat) : List Nat :=
  (packet.take (packet.length - 4)).drop 12

/-- Final stage of the decode worker (lines 182-223): extension strip, the
empty-plaintext silence short-circuit, and the Opus decode with silence
substitution on failure.  dec is the external Opus decoder oracle. -/
def decodeOpusStage (dec : List Nat → Option (List Nat)) (sequence timestamp : Nat)
    (opusData : List Nat) : DecodeOutcome :=
  let cleanOpusData := extractOpusFromRTP opusData
  if cleanOpusData.length = 0 then
    ⟨some (List.replicate 3840 0), sequence, timestamp, none⟩
  else
    match dec cleanOpusData with
    | some pcmData => ⟨some pcmData, sequence, timestamp, some cleanOpusData⟩
    | none => ⟨some (List.replicate 3840 0), sequence, timestamp, some cleanOpusData⟩

/-- Decode-worker message handler for one RTP packet
(audioDecodingWorker.ts lines 85-235): length check, header parse, the
hard-coded sequence-7/timestamp-45110 silence sentinel, lite-mode open with
the receive nonce, then the Opus stage.  Thrown errors become outcomes with
pcm = none. -/
def decodeFrame (mode : String) (secretKey : List Nat)
    (dec : List Nat → Option (List Nat)) (rtpPacket : List Nat) : DecodeOutcome :=
  if rtpPacket.length < 12 then ⟨none, 0, 0, none⟩
  else
    let sequence := readU16BE rtpPacket 2
    let timestamp := readU32BE rtpPacket 4
    if mode = liteModeName then
      if rtpPacket.length < 16 then ⟨none, sequence, timestamp, none⟩
      else if sequence = 7 ∧ timestamp = 45110 ∧ (rtpCiphertext rtpPacket).length ≤ 40 then
        decodeOpusStage dec sequence timestamp []
      else
        match secretboxOpen (rtpCiphertext rtpPacket) (rtpNonce rtpPacket) secretKey with
        | none => ⟨none, sequence, timestamp, none⟩
        | some d => decodeOpusStage dec sequence timestamp d
    else
      decodeOpusStage dec sequence timestamp (rtpPacket.drop 12)

/-- Encode-worker message handler for one frame
(audioEncodingWorker.ts lines 51-118): RTP header build, Opus encode
(oracle enc), lite-mode seal under the send nonce (the 4-byte big-endian
sequence followed by 20 zero bytes) and the 4-byte nonce tail. -/
def encodeFrame (mode : String) (secretKey : List Nat) (ssrc : Nat)
    (enc : List Nat → List Nat) (pcmData : List Nat)
    (sequence timestamp : Nat) : Except String (List Nat) :=
  match writeUInt16BE sequence with
  | Except.error e => Except.error e
  | Except.ok seqBytes =>
  match writeUInt32BE timestamp with
  | Except.error e => Except.error e
  | Except.ok tsBytes =>
  match writeUInt32BE ssrc with
  | Except.error e => Except.error e
  | Except.ok ssrcBytes =>
    let rtpHeader := 128 :: 120 :: (seqBytes ++ tsBytes ++ ssrcBytes)
    let opusData := enc pcmData
    if mode = liteModeName then
      match writeUInt32BE sequence with
      | Except.error e => Except.error e
      | Except.ok nonceBuffer =>
          Except.ok (rtpHeader ++
            secretbox opusData (nonceBuffer ++ List.replicate 20 0) secretKey ++
            nonceBuffer)
    else
      Except.ok (rtpHeader ++ opusData)

/-- Sequence and timestamp parameters handed to the encode worker by the
playAudio frame loop (threadedWebrtcVoiceHandler.ts lines 274-293): frame i
gets (sequence0 + i, timestamp0 + 960 * i), with no modular reduction. -/
def playAudioFrameParams (startSeq startTs n : Nat) : List (Nat × Nat) :=
  (List.range n).map (fun i => (startSeq + i, startTs + 960 * i))

/-- Placeholder id string built by the UDP message handler
(threadedWebrtcVoiceHandler.ts line 162). -/
def userPlaceholder (n : Nat) : String :=
  "user_" ++ toString n

/-- Identity attributed to a decoded frame by the UDP message handler
(threadedWebrtcVoiceHandler.ts lines 160-164): a chunk is buffered only when
PCM is nonempty, under the id user_(sequence mod 1000). -/
def attributionFor (decoded : DecodeOutcome) : Option String :=
  match decoded.pcm with
  | some pcmData =>
      if 0 < pcmData.length then some (userPlaceholder (decoded.sequence % 1000))
      else none
  | none => none

/-- Op 5 (speaking) case of handleVoiceMessage
(threadedWebrtcVoiceHandler.ts lines 203-205): the case body is empty, so
any SSRC-to-user binding state is left unchanged. -/
def handleVoiceMessageOp5 (bindings : List (Nat × String)) : List (Nat × String) :=
  bindings

/-- AudioBufferManager.estimateBufferDuration: total PCM bytes over
192,000 bytes per second, in milliseconds. -/
def estimateBufferDuration (chunks : List (List Nat)) : ℚ :=
  if chunks.length = 0 then 0
  else ((chunks.foldl (fun s c => s + c.length) 0 : ℕ) : ℚ) / 192000 * 1000

/-- AudioBufferManager.flushBuffer: on a nonempty slot, emit one audioReady
event with the concatenated PCM and clear the slot.  Buffers are modelled as
a total map from user id to the chunk list; the wall-clock start/end
timestamps and the silence timers are outside the model. -/
def flushBuffer (buffers : String → List (List Nat)) (userId : String) :
    (String → List (List Nat)) × List (String × List Nat) :=
  let userBuffer := buffers userId
  if userBuffer.length = 0 then (buffers, [])
  else ((fun v => if v = userId then [] else buffers v), [(userId, userBuffer.flatten)])

/-- AudioBufferManager.addAudioChunk: push the chunk, then flush if the
estimated duration of the slot now exceeds maxBufferSizeMs.  Returns the new
buffer map and the emitted audioReady events. -/
def addAudioChunk (maxBufferSizeMs : ℚ) (buffers : String → List (List Nat))
    (userId : String) (pcmData : List Nat) :
    (String → List (List Nat)) × List (String × List Nat) :=
  let userBuffer := buffers userId ++ [pcmData]
  let buffers1 : String → List (List Nat) := fun v => if v = userId then userBuffer else buffers v
  if maxBufferSizeMs < estimateBufferDuration userBuffer then flushBuffer buffers1 userId
  else (buffers1, [])

/-- Observable events of the direct-transmission pacer: voice op 5 speaking
messages and UDP frame sends. -/
inductive TxEvent where
  | speakingMsg (flag : Nat)
  | frameSent (packet : List Nat)
deriving DecidableEq

/-- setSpeaking (threadedWebrtcVoiceHandler.ts lines 377-392): emits one
op 5 message with speaking 1 or 0 only when the flag actually changes. -/
def setSpeakingTrace (speaking target : Bool) : Bool × List TxEvent :=
  if speaking = target then (speaking, [])
  else (target, [TxEvent.speakingMsg (if target then 1 else 0)])

/-- startDirectTransmission (lines 302-343) as an event trace: guarded by
isSending and a nonempty queue, it sets speaking, sends every queued frame
in order (the 20 ms pacing delays are abstracted away, order preserved) and
clears speaking.  Returns the final speaking flag and the trace. -/
def startDirectTransmission (isSending speaking : Bool)
    (sendQueue : List (List Nat)) : Bool × List TxEvent :=
  if isSending ∨ sendQueue.length = 0 then (speaking, [])
  else
    let s1 := setSpeakingTrace speaking true
    let s2 := setSpeakingTrace s1.1 false
    (s2.1, s1.2 ++ sendQueue.map TxEvent.frameSent ++ s2.2)

/-- Opus encoder options passed to the discordjs-opus OpusEncoder
constructor (audioEncodingWorker.ts lines 41-46). -/
structure OpusEncoderConfig where
  bitrate : Nat
  fec : Bool
  plp : ℚ
  application : String
deriving DecidableEq

/-- Encoder configuration literal from audioEncodingWorker.ts lines 41-46. -/
def encoderConfig : OpusEncoderConfig :=
  { bitrate := 128000, fec := true, plp := 1 / 100, application := "voip" }

/-- Spec-side construction for the extension round-trip property: prepend a
0xBEDE one-byte-extension header (marker bytes, big-endian 16-bit word
count, then the 32-bit extension words) to a payload. -/
def appendBEDEHeader (words : List (List Nat)) (P : List Nat) : List Nat :=
  190 :: 222 :: (words.length / 256) :: (words.length % 256) :: (words.flatten ++ P)

/-- Sample 32-byte session key used by concrete evaluations. -/
def sampleKey : List Nat := List.replicate 32 1

/-- Packet produced by the encode worker for payload [1, 2, 3] at sequence 0,
timestamp 0, ssrc 5 under sampleKey, with the identity Opus oracle (the
round-trip property is stated at the RTP/crypto layer, skipping Opus). -/
def c1packet : List Nat :=
  match encodeFrame liteModeName sampleKey 5 (fun x => x) [1, 2, 3] 0 0 with
  | Except.ok p => p
  | Except.error _ => []

/-- Opus decoder oracle returning a fixed small nonzero PCM block. -/
def c3dec : List Nat → Option (List Nat) := fun _ => some [1, 2, 3]

/-- RTP header whose first two bytes are 0x00 0x01 (the IP-discovery
response signature) with length field 70 at bytes 2-3. -/
def c3header : List Nat := [0, 1, 0, 70, 0, 0, 0, 9, 0, 0, 0, 9]

/-- Nonce tail of the C3 sample datagram. -/
def c3tail : List Nat := [9, 9, 9, 9]

/-- A 42-byte plaintext whose first byte is 0xF8 (not an extension marker). -/
def c3msg : List Nat := List.replicate 42 248

/-- A 74-byte datagram that begins with 0x0001 yet carries a lite-mode
payload sealed under the session key and the receive nonce the decoder will
derive from this very packet. -/
def c3packet : List Nat :=
  c3header ++ secretbox c3msg (c3header ++ c3tail ++ List.replicate 8 0) sampleKey ++ c3tail

/-- Opus decoder oracle returning a fixed one-byte-per-sample PCM block. -/
def c4dec : List Nat → Option (List Nat) := fun _ => some [1]

/-- Plain-mode packet with sequence 7 and SSRC field 42. -/
def c4packet1 : List Nat := [128, 120, 0, 7, 0, 0, 0, 1, 0, 0, 0, 42, 200]

/-- Plain-mode packet with sequence 8 and the same SSRC field 42. -/
def c4packet2 : List Nat := [128, 120, 0, 8, 0, 0, 0, 1, 0, 0, 0, 42, 200]

/-- Opus decoder oracle returning a 100-byte nonzero PCM block. -/
def c5dec : List Nat → Option (List Nat) := fun _ => some (List.replicate 100 2)

/-- RTP header (sequence 1, timestamp 2, ssrc 3) of the C5 sample packet. -/
def c5header : List Nat := [128, 120, 0, 1, 0, 0, 0, 2, 0, 0, 0, 3]

/-- Lite-mode packet whose decrypted plaintext is the single byte [5]. -/
def c5packet : List Nat :=
  c5header ++ secretbox [5] (c5header ++ [7, 7, 7, 7] ++ List.replicate 8 0) sampleKey ++ [7, 7, 7, 7]

/-- Sample speaker id for buffer evaluations. -/
def uid1 : String := "alice"

/-- Empty per-speaker buffer map. -/
def emptyBuffers : String → List (List Nat) := fun _ => []

/-- Buffer map whose every slot already holds exactly 10 s of PCM
(1,920,000 bytes at 192,000 bytes per second). -/
def bigChunkBuffers : String → List (List Nat) := fun _ => [List.replicate 1920000 0]

@[simp]
lemma decodeOpusStage_sequence (dec : List Nat → Option (List Nat)) (s t : Nat)
    (od : List Nat) : (decodeOpusStage dec s t od).sequence = s := by
  simp only [decodeOpusStage]
  split
  · rfl
  · split <;> rfl

lemma flushBuffer_apply (bufs : String → List (List Nat)) (u : String)
    (h : bufs u ≠ []) :
    flushBuffer bufs u = ((fun v => if v = u then [] else bufs v), [(u, (bufs u).flatten)]) := by
  simp only [flushBuffer]
  rw [if_neg (by simpa using h)]

lemma decodeFrame_pcm_none_or_sequence (mode : String) (key : List Nat)
    (dec : List Nat → Option (List Nat)) (packet : List Nat) :
    (decodeFrame mode key dec packet).pcm = none ∨
    (decodeFrame mode key dec packet).sequence = readU16BE packet 2 := by
  simp only [decodeFrame]
  repeat' split
  all_goals simp

/-- C9: the session's Opus encoder is configured with bitrate 128,000 bit/s
(within 64-128 kbit/s), the voice application hint, a 1 percent expected
packet loss, and forward error correction ENABLED — refuting the claim that
forward error correction is disabled. -/
theorem c9_encoder_cex :
    ¬ (64000 ≤ encoderConfig.bitrate ∧ encoderConfig.bitrate ≤ 128000 ∧
       encoderConfig.fec = false ∧ encoderConfig.application = "voip") := by
  decide

/-- C9 (amended): the encoder is configured at 128 kbit/s (inside the 64-128
kbit/s range) with the voice application hint, but forward error correction
is enabled (with a 1 percent expected-packet-loss setting). -/
theorem c9_encoder_amended :
    encoderConfig.bitrate = 128000 ∧ 64000 ≤ encoderConfig.bitrate ∧
    encoderConfig.bitrate ≤ 128000 ∧ encoderConfig.fec = true ∧
    encoderConfig.plp = 1 / 100 ∧ encoderConfig.application = "voip" :=
  ⟨rfl, by decide, by decide, rfl, rfl, rfl⟩

/-- C2: the playAudio loop hands frame parameters (seq0 + i, ts0 + 960 i) to
the encode worker with no modular reduction, so the frame after sequence
0xFFFF arrives with sequence 65536; there the modelled 16-bit header write
fails with the Node range error instead of wrapping to 0x0000, while the
frame at sequence 0xFFFF is still framed and sealed normally.  This refutes
the claimed wrap behavior and exhibits the code bug. -/
theorem c2_sequence_wrap_bug :
    playAudioFrameParams 65535 0 2 = [(65535, 0), (65536, 960)] ∧
    (encodeFrame liteModeName sampleKey 9 (fun x => x) [0, 0] 65535 0).toOption.map
        (fun p => p.take 4) = some [128, 120, 255, 255] ∧
    encodeFrame liteModeName sampleKey 9 (fun x => x) [0, 0] 65536 960 =
      Except.error rangeErrMsg :=
  ⟨by decide, by decide, rfl⟩

/-- C6: stripping the RTP extension from the result of prepending a
well-formed 0xBEDE one-byte-extension header (one word, element id 1 of
length 0, two padding bytes) to the non-empty payload [0, 1] yields [1],
not [0, 1]: the trailing zero-skip of extractOpusFromRTP also consumes the
payload's leading zero byte, so stripping is not a left inverse of
prepending on all non-empty payloads. -/
theorem c6_strip_cex :
    extractOpusFromRTP (appendBEDEHeader [[16, 170, 0, 0]] [0, 1]) = [1] ∧
    extractOpusFromRTP (appendBEDEHeader [[16, 170, 0, 0]] [0, 1]) ≠ [0, 1] := by
  decide

/-- C4: two decoded packets with the same SSRC field (bytes 8-11) but
different sequence numbers are attributed to different placeholder ids
(user_7 and user_8), so the placeholder is not derived from the packet's
SSRC; it is derived from the sequence number. -/
theorem c4_placeholder_cex :
    readU32BE c4packet1 8 = readU32BE c4packet2 8 ∧
    attributionFor (decodeFrame plainModeName sampleKey c4dec c4packet1) =
      some (userPlaceholder 7) ∧
    attributionFor (decodeFrame plainModeName sampleKey c4dec c4packet2) =
      some (userPlaceholder 8) ∧
    userPlaceholder 7 ≠ userPlaceholder 8 := by
  decide

/-- C4 (amended): whenever the UDP handler attributes decoded PCM to an
identity, that identity is the placeholder user_(sequence mod 1000) derived
from the packet's RTP sequence field, not from its SSRC; and the op 5
speaking case of handleVoiceMessage is empty, so no SSRC-to-user binding is
ever recorded and no utterance is re-parented. -/
theorem c4_placeholder_amended :
    (∀ (mode : String) (key : List Nat) (dec : List Nat → Option (List Nat))
        (packet : List Nat) (uid : String),
      attributionFor (decodeFrame mode key dec packet) = some uid →
      uid = userPlaceholder (readU16BE packet 2 % 1000)) ∧
    (∀ bindings, handleVoiceMessageOp5 bindings = bindings) := by
  refine ⟨?_, fun _ => rfl⟩
  intro mode key dec packet uid h
  rcases decodeFrame_pcm_none_or_sequence mode key dec packet with hn | hs
  · simp [attributionFor, hn] at h
  · rw [← hs]
    simp only [attributionFor] at h
    split at h
    · split at h
      · exact (Option.some_inj.mp h).symm
      · exact absurd h (by simp)
    · exact absurd h (by simp)

/-- C4 witness: the amended statement evaluated on the concrete packet
c4packet1 (sequence 7) and a concrete binding list. -/
theorem c4_placeholder_amended_witness :
    userPlaceholder 7 = userPlaceholder (readU16BE c4packet1 2 % 1000) ∧
    handleVoiceMessageOp5 [(42, uid1)] = [(42, uid1)] :=
  ⟨c4_placeholder_amended.1 plainModeName sampleKey c4dec c4packet1
      (userPlaceholder 7) (by decide),
   c4_placeholder_amended.2 [(42, uid1)]⟩

/-- C8: for every nonempty send queue, a direct transmission started outside
a batch (speaking flag 0, not sending) emits exactly one op 5 speaking=1
message, then every queued RTP frame in order, then one op 5 speaking=0
message, and leaves the speaking flag at 0. -/
theorem c8_speaking_trace (q : List (List Nat)) (h : q ≠ []) :
    startDirectTransmission false false q =
      (false, TxEvent.speakingMsg 1 ::
        (q.map TxEvent.frameSent ++ [TxEvent.speakingMsg 0])) := by
  simp [startDirectTransmission, setSpeakingTrace, List.length_eq_zero, h]

/-- C8 witness: the speaking trace of a one-frame batch. -/
theorem c8_speaking_trace_witness :
    startDirectTransmission false false [[1]] =
      (false, TxEvent.speakingMsg 1 ::
        ([[1]].map TxEvent.frameSent ++ [TxEvent.speakingMsg 0])) :=
  c8_speaking_trace [[1]] (by decide)

/-- C10: after every addAudioChunk call returns, the estimated buffered
duration of that speaker's slot is at most the configured maximum: any
addition that pushes the estimate above the maximum flushes the slot to
empty within the same call. -/
theorem c10_buffer_cap_invariant (maxMs : ℚ) (bufs : String → List (List Nat))
    (u : String) (pcm : List Nat) (hmax : 0 ≤ maxMs) :
    estimateBufferDuration ((addAudioChunk maxMs bufs u pcm).1 u) ≤ maxMs := by
  simp only [addAudioChunk]
  by_cases h : maxMs < estimateBufferDuration (bufs u ++ [pcm])
  · rw [if_pos h, flushBuffer_apply _ _ (by simp)]
    simpa [estimateBufferDuration] using hmax
  · rw [if_neg h]
    simpa [estimateBufferDuration] using not_lt.mp h

/-- C10 witness: the invariant evaluated at the default 10,000 ms cap on an
empty buffer map. -/
theorem c10_buffer_cap_invariant_witness :
    (0 : ℚ) ≤ 10000 ∧
    estimateBufferDuration ((addAudioChunk 10000 emptyBuffers uid1 [1]).1 uid1) ≤ 10000 :=
  ⟨by norm_num, c10_buffer_cap_invariant 10000 emptyBuffers uid1 [1] (by norm_num)⟩

/-- C7: adding a one-byte chunk to a slot already holding exactly 10 s of
PCM (under the default 10,000 ms cap) flushes AFTER the chunk is stored: the
single emitted utterance is the old contents followed by the triggering
chunk, refuting the claim that the flush happens before the new chunk is
stored and that no emitted utterance contains the chunk that triggered the
overflow. -/
theorem c7_flush_order_cex :
    (addAudioChunk 10000 bigChunkBuffers uid1 [5]).2 =
      [(uid1, List.replicate 1920000 0 ++ [5])] := by
  have key : ∀ (L : List Nat), L.length = 1920000 →
      (addAudioChunk 10000 (fun _ => [L]) uid1 [5]).2 = [(uid1, L ++ [5])] := by
    intro L hL
    have hfold : List.foldl (fun s (c : List Nat) => s + c.length) 0
        ([L] ++ [[5]]) = 1920001 := by
      simp [hL]
    have hest : (10000 : ℚ) < estimateBufferDuration ([L] ++ [[5]]) := by
      unfold estimateBufferDuration
      rw [if_neg (by simp), hfold]
      norm_num
    simp only [addAudioChunk]
    rw [if_pos hest, flushBuffer_apply _ _ (by simp)]
    simp
  exact key (List.replicate 1920000 0) (List.length_replicate _ _)

/-- C7 (amended): a chunk whose addition pushes the estimated in-buffer
duration past the cap forces an immediate flush after the chunk is stored:
the call emits exactly one utterance consisting of the previous contents
followed by the triggering chunk, and leaves the slot empty. -/
theorem c7_flush_order_amended (maxMs : ℚ) (bufs : String → List (List Nat))
    (u : String) (pcm : List Nat)
    (h : maxMs < estimateBufferDuration (bufs u ++ [pcm])) :
    addAudioChunk maxMs bufs u pcm =
      ((fun v => if v = u then [] else bufs v), [(u, (bufs u ++ [pcm]).flatten)]) := by
  simp only [addAudioChunk]
  rw [if_pos h, flushBuffer_apply _ _ (by simp)]
  simp only [Prod.mk.injEq]
  constructor
  · funext v
    by_cases hv : v = u <;> simp [hv]
  · simp

lemma extractOpus_small (l : List Nat) (h : l.length ≤ 4) :
    extractOpusFromRTP l = l := by
  simp only [extractOpusFromRTP]
  split
  · rfl
  · rw [if_neg (fun hc => absurd hc.1 (by omega))]

/-- C3: a 74-byte datagram that begins with the IP-discovery response
signature 0x0001, whose lite-mode body authenticates under the session key
and the packet-derived receive nonce, IS decoded as audio: the decode
worker checks neither the RTP version field (this packet's version bits are
0, not 2) nor the discovery signature; it decrypts the body, hands the
42-byte plaintext to the Opus decoder, and the resulting PCM is attributed
to a speaker slot.  This refutes the claimed rejection. -/
theorem c3_receive_reject_cex :
    c3packet.length = 74 ∧ c3packet.take 2 = [0, 1] ∧
    (decodeFrame liteModeName sampleKey c3dec c3packet).pcm = some [1, 2, 3] ∧
    (decodeFrame liteModeName sampleKey c3dec c3packet).decoderArg = some c3msg ∧
    attributionFor (decodeFrame liteModeName sampleKey c3dec c3packet) =
      some (userPlaceholder 70) := by
  decide

/-- C3 (amended): the receive path rejects datagrams shorter than 12 bytes,
and lite-mode datagrams shorter than 16 bytes, producing no PCM and no
decoder invocation; it performs no RTP-version check and no IP-discovery
filtering, so a 74-byte datagram beginning 0x0001 whose body authenticates
under the session key is decoded as audio. -/
theorem c3_receive_reject_amended :
    (∀ (mode : String) (key : List Nat) (dec : List Nat → Option (List Nat))
        (packet : List Nat), packet.length < 12 →
      decodeFrame mode key dec packet = ⟨none, 0, 0, none⟩ ∧
      attributionFor (decodeFrame mode key dec packet) = none) ∧
    (∀ (key : List Nat) (dec : List Nat → Option (List Nat))
        (packet : List Nat), packet.length < 16 →
      (decodeFrame liteModeName key dec packet).pcm = none ∧
      (decodeFrame liteModeName key dec packet).decoderArg = none) := by
  constructor
  · intro mode key dec packet h
    constructor <;> simp [decodeFrame, h, attributionFor]
  · intro key dec packet h16
    by_cases h12 : packet.length < 12
    · constructor <;> simp [decodeFrame, h12]
    · constructor <;> simp [decodeFrame, h12, h16]

/-- C3 witness: the amended rejections evaluated on a 3-byte datagram and a
13-byte lite-mode datagram. -/
theorem c3_receive_reject_amended_witness :
    (decodeFrame plainModeName sampleKey c3dec [0, 1, 2] = ⟨none, 0, 0, none⟩ ∧
      attributionFor (decodeFrame plainModeName sampleKey c3dec [0, 1, 2]) = none) ∧
    ((decodeFrame liteModeName sampleKey c3dec (c5header ++ [9])).pcm = none ∧
      (decodeFrame liteModeName sampleKey c3dec (c5header ++ [9])).decoderArg = none) :=
  ⟨c3_receive_reject_amended.1 plainModeName sampleKey c3dec [0, 1, 2] (by decide),
   c3_receive_reject_amended.2 sampleKey c3dec (c5header ++ [9]) (by decide)⟩

/-- C5: a lite-mode packet whose decrypted plaintext is the single byte [5]
(length 1, hence at most 3) does NOT short-circuit to silence: the decode
worker hands [5] to the Opus decoder and emits the decoder's 100-byte
output, not 3,840 zero bytes — refuting the claim that every plaintext of
length at most 3 yields exactly 3,840 bytes of silence without invoking the
decoder. -/
theorem c5_silence_cex :
    secretboxOpen (rtpCiphertext c5packet) (rtpNonce c5packet) sampleKey = some [5] ∧
    (decodeFrame liteModeName sampleKey c5dec c5packet).decoderArg = some [5] ∧
    (decodeFrame liteModeName sampleKey c5dec c5packet).pcm =
      some (List.replicate 100 2) ∧
    some (List.replicate 100 2) ≠ some (List.replicate 3840 (0 : Nat)) := by
  decide

/-- C5 (amended): for a successfully opened, non-sentinel lite-mode packet
with plaintext of length at most 3, only the EMPTY plaintext produces the
3,840-byte silence frame without invoking the decoder; a plaintext of
length 1 to 3 is passed unchanged to the Opus decoder (extension stripping
leaves short buffers intact) and yields the decoder's output, with the
3,840-byte silence frame only as the decode-failure substitute. -/
theorem c5_silence_amended (key : List Nat) (dec : List Nat → Option (List Nat))
    (packet pt : List Nat) (h16 : ¬ packet.length < 16)
    (hopen : secretboxOpen (rtpCiphertext packet) (rtpNonce packet) key = some pt)
    (hsent : ¬ (readU16BE packet 2 = 7 ∧ readU32BE packet 4 = 45110 ∧
        (rtpCiphertext packet).length ≤ 40))
    (hlen : pt.length ≤ 3) :
    decodeFrame liteModeName key dec packet =
      if pt.length = 0 then
        ⟨some (List.replicate 3840 0), readU16BE packet 2, readU32BE packet 4, none⟩
      else
        ⟨some ((dec pt).getD (List.replicate 3840 0)), readU16BE packet 2,
          readU32BE packet 4, some pt⟩ := by
  have h12 : ¬ packet.length < 12 := by omega
  simp only [decodeFrame]
  rw [if_neg h12, if_true, if_neg h16, if_neg hsent, hopen]
  simp only [decodeOpusStage, extractOpus_small pt (by omega)]
  by_cases hz : pt.length = 0
  · rw [if_pos hz, if_pos hz]
  · rw [if_neg hz, if_neg hz]
    cases dec pt <;> rfl

/-- C5 witness: the amended statement evaluated on the concrete packet
whose plaintext is [5], with a decoder oracle returning 100 bytes. -/
theorem c5_silence_amended_witness :
    (¬ c5packet.length < 16) ∧
    secretboxOpen (rtpCiphertext c5packet) (rtpNonce c5packet) sampleKey = some [5] ∧
    decodeFrame liteModeName sampleKey c5dec c5packet =
      (if ([5] : List Nat).length = 0 then
        ⟨some (List.replicate 3840 0), readU16BE c5packet 2, readU32BE c5packet 4, none⟩
      else
        ⟨some ((c5dec [5]).getD (List.replicate 3840 0)), readU16BE c5packet 2,
          readU32BE c5packet 4, some [5]⟩ : DecodeOutcome) :=
  ⟨by decide, by decide,
   c5_silence_amended sampleKey c5dec c5packet [5] (by decide) (by decide)
     (by decide) (by decide)⟩

lemma flatten_length_four (ws : List (List Nat)) (hw : ∀ w ∈ ws, w.length = 4) :
    ws.flatten.length = 4 * ws.length := by
  induction ws with
  | nil => simp
  | cons w ws ih =>
      simp only [List.flatten_cons, List.length_append, List.length_cons]
      rw [hw w (List.mem_cons_self w ws),
        ih (fun x hx => hw x (List.mem_cons_of_mem w hx))]
      ring

lemma skipSubs_succ (data : List Nat) (i offset : Nat) :
    skipSubs data (i + 1) offset =
      if offset < data.length then
        skipSubs data i (offset + ((data.getD offset 0 &&& 15) + 1) * 4)
      else offset := rfl

lemma skipSubs_words (pre : List Nat) (ws : List (List Nat)) (suf : List Nat)
    (hw : ∀ w ∈ ws, w.length = 4 ∧ w.headD 0 &&& 15 = 0) :
    skipSubs (pre ++ ws.flatten ++ suf) ws.length pre.length =
      pre.length + 4 * ws.length := by
  induction ws generalizing pre with
  | nil => simp [skipSubs]
  | cons w ws ih =>
      obtain ⟨hw4, hw0⟩ := hw w (List.mem_cons_self w ws)
      obtain ⟨a, w1, rfl⟩ : ∃ a w1, w = a :: w1 := by
        cases w with
        | nil => simp at hw4
        | cons a w1 => exact ⟨a, w1, rfl⟩
      have ha : a &&& 15 = 0 := by simpa using hw0
      have hdata : pre ++ ((a :: w1) :: ws).flatten ++ suf =
          (pre ++ (a :: w1)) ++ ws.flatten ++ suf := by
        simp [List.flatten_cons, List.append_assoc]
      have hlen : pre.length < ((pre ++ (a :: w1)) ++ ws.flatten ++ suf).length := by
        simp only [List.length_append, List.length_cons, hw4]
        omega
      have hget : ((pre ++ (a :: w1)) ++ ws.flatten ++ suf).getD pre.length 0 = a := by
        rw [List.append_assoc, List.append_assoc,
          List.getD_append_right pre _ 0 pre.length le_rfl]
        simp
      have hplen : pre.length + 4 = (pre ++ (a :: w1)).length := by
        simp [hw4]
      rw [List.length_cons, hdata, skipSubs_succ, if_pos hlen, hget, ha]
      simp only [Nat.zero_add, Nat.one_mul]
      rw [hplen, ih (pre ++ (a :: w1)) (fun x hx => hw x (List.mem_cons_of_mem _ hx))]
      simp only [List.length_append, hw4]
      omega

lemma pack2_length : ∀ (l : List Nat), (pack2 l).length = (l.length + 1) / 2
  | [] => by simp [pack2]
  | [a] => by simp [pack2]
  | a :: b :: rest => by
      simp [pack2, pack2_length rest]
      omega

lemma tag16_length (key nonce msg : List Nat) (h : nonce.length = 24) :
    (tag16 key nonce msg).length = 16 := by
  simp [tag16, pack2_length, h]

lemma rtpCiphertext_append (hdr ct tl : List Nat) (hh : hdr.length = 12)
    (htl : tl.length = 4) : rtpCiphertext (hdr ++ ct ++ tl) = ct := by
  unfold rtpCiphertext
  have h1 : (hdr ++ ct ++ tl).length - 4 = (hdr ++ ct).length := by
    simp [htl]
    omega
  rw [h1, List.take_left, ← hh, List.drop_left]

lemma rtpNonce_append (hdr ct tl : List Nat) (hh : hdr.length = 12)
    (htl : tl.length = 4) :
    rtpNonce (hdr ++ ct ++ tl) = hdr ++ tl ++ List.replicate 8 0 := by
  unfold rtpNonce
  have h1 : (hdr ++ ct ++ tl).length - 4 = (hdr ++ ct).length := by
    simp [htl]
    omega
  rw [h1, List.drop_left]
  have h2 : (hdr ++ ct ++ tl).take 12 = hdr := by
    rw [List.append_assoc, ← hh, List.take_left]
  rw [h2]

lemma secretboxOpen_seal_ne (key msg n1 n2 : List Nat) (h1 : n1.length = 24)
    (hne : pack2 n1 ≠ pack2 n2) :
    secretboxOpen (secretbox msg n1 key) n2 key = none := by
  have hlen : (tag16 key n1 msg).length = 16 := tag16_length key n1 msg h1
  have htake : (tag16 key n1 msg ++ msg).take 16 = tag16 key n1 msg := by
    rw [← hlen, List.take_left]
  have hdrop : (tag16 key n1 msg ++ msg).drop 16 = msg := by
    rw [← hlen, List.drop_left]
  have hcond : tag16 key n1 msg ≠ tag16 key n2 msg := by
    intro hc
    exact hne ((List.append_left_inj _).mp hc)
  unfold secretboxOpen secretbox
  rw [htake, hdrop, if_neg (by simp [hlen]), if_neg hcond]

/-- C1: the RTP-layer crypto round trip fails even when the tail equals the
big-endian encoding of the send sequence: the packet sealed at sequence 0
carries tail [0, 0, 0, 0] = u32BE(0), yet opening it under the receive
nonce (header bytes, tail, zeros) returns none, because the receive nonce
never equals the send nonce (u32BE(sequence), 20 zeros).  This refutes the
claimed if-and-only-if. -/
theorem c1_round_trip_cex :
    c1packet.length = 35 ∧
    c1packet.drop (c1packet.length - 4) = [0, 0, 0, 0] ∧
    secretboxOpen (rtpCiphertext c1packet) (rtpNonce c1packet) sampleKey = none := by
  decide

/-- C1 (amended): opening a packet produced by the encode worker under the
receive nonce always fails, for every payload, sequence, timestamp and SSRC
in range: the receive nonce begins with the RTP header bytes 0x80 0x78
while the send nonce begins with the two high-order bytes of the 16-bit
sequence, which are 0, so the nonces never agree and the authenticated open
rejects; the round trip never recovers the payload. -/
theorem c1_round_trip_amended (key : List Nat) (enc : List Nat → List Nat)
    (P : List Nat) (s t ssrc : Nat) (pkt : List Nat)
    (hs : s < 65536) (ht : t < 4294967296) (hssrc : ssrc < 4294967296)
    (hok : encodeFrame liteModeName key ssrc enc P s t = Except.ok pkt) :
    secretboxOpen (rtpCiphertext pkt) (rtpNonce pkt) key = none := by
  have hs32 : s < 4294967296 := by omega
  have w16 : writeUInt16BE s = Except.ok [s / 256, s % 256] := by
    simp [writeUInt16BE, hs]
  have w32t : writeUInt32BE t =
      Except.ok [t / 16777216, t / 65536 % 256, t / 256 % 256, t % 256] := by
    simp [writeUInt32BE, ht]
  have w32s : writeUInt32BE ssrc =
      Except.ok [ssrc / 16777216, ssrc / 65536 % 256, ssrc / 256 % 256, ssrc % 256] := by
    simp [writeUInt32BE, hssrc]
  have w32q : writeUInt32BE s =
      Except.ok [s / 16777216, s / 65536 % 256, s / 256 % 256, s % 256] := by
    simp [writeUInt32BE, hs32]
  simp only [encodeFrame, w16, w32t, w32s, w32q, eq_self_iff_true, if_true,
    Except.ok.injEq] at hok
  subst hok
  rw [rtpCiphertext_append _ _ _ (by simp) (by simp),
    rtpNonce_append _ _ _ (by simp) (by simp)]
  refine secretboxOpen_seal_ne key (enc P) _ _ (by simp) ?_
  intro h
  have hh := congrArg List.head? h
  have e1 : s / 16777216 = 0 := Nat.div_eq_of_lt (by omega)
  have e2 : s / 65536 = 0 := Nat.div_eq_of_lt hs
  simp [pack2, e1, e2] at hh

/-- C1 witness: the amended failure evaluated on the concrete sealed packet
at sequence 0 (whose tail is exactly u32BE(0)). -/
theorem c1_round_trip_amended_witness :
    encodeFrame liteModeName sampleKey 5 (fun x => x) [1, 2, 3] 0 0 =
      Except.ok c1packet ∧
    secretboxOpen (rtpCiphertext c1packet) (rtpNonce c1packet) sampleKey = none :=
  ⟨rfl, c1_round_trip_amended sampleKey (fun x => x) [1, 2, 3] 0 0 5 c1packet
    (by decide) (by decide) (by decide) rfl⟩
theorem c7_flush_order_amended_witness :
    (0 : ℚ) < estimateBufferDuration (emptyBuffers uid1 ++ [[1]]) ∧
    addAudioChunk 0 emptyBuffers uid1 [1] =
      ((fun v => if v = uid1 then [] else emptyBuffers v),
        [(uid1, (emptyBuffers uid1 ++ [[1]]).flatten)]) :=
  ⟨by norm_num [estimateBufferDuration, emptyBuffers],
   c7_flush_order_amended 0 emptyBuffers uid1 [1]
     (by norm_num [estimateBufferDuration, emptyBuffers])⟩

/-- C6 (amended): stripping recovers the payload exactly for every
non-empty payload whose first byte is nonzero, provided each 32-bit
extension word begins with a byte whose low nibble is 0 (so the code's
element-skip loop advances exactly one word per count); payloads beginning
with zero bytes additionally lose their leading zeros to the trailing
zero-skip. -/
theorem c6_strip_amended (words : List (List Nat)) (P : List Nat) (b : Nat)
    (hw : ∀ w ∈ words, w.length = 4 ∧ w.headD 0 &&& 15 = 0)
    (hwc : words.length < 65536)
    (hP : P.head? = some b) (hb : b ≠ 0) :
    extractOpusFromRTP (appendBEDEHeader words P) = P := by
  obtain ⟨Pt, rfl⟩ : ∃ Pt, P = b :: Pt := by
    cases P with
    | nil => simp at hP
    | cons x xs =>
        simp only [List.head?_cons, Option.some.injEq] at hP
        exact ⟨xs, by rw [hP]⟩
  have hflatlen : words.flatten.length = 4 * words.length :=
    flatten_length_four words (fun w hw' => (hw w hw').1)
  have hdm : words.length / 256 * 256 + words.length % 256 = words.length := by
    rw [Nat.mul_comm]
    exact Nat.div_add_mod _ 256
  have hread : readU16BE (appendBEDEHeader words (b :: Pt)) 2 = words.length := by
    simp [appendBEDEHeader, readU16BE, hdm]
  have hskip : skipSubs (appendBEDEHeader words (b :: Pt)) words.length 4 =
      4 + 4 * words.length := by
    have hsh : appendBEDEHeader words (b :: Pt) =
        [190, 222, words.length / 256, words.length % 256] ++ words.flatten ++ (b :: Pt) := by
      simp [appendBEDEHeader]
    have h := skipSubs_words
      [190, 222, words.length / 256, words.length % 256] words (b :: Pt) hw
    have hl4 : ([190, 222, words.length / 256, words.length % 256] : List Nat).length = 4 := by
      simp
    rw [hl4] at h
    rw [hsh]
    exact h
  have hdrop : (appendBEDEHeader words (b :: Pt)).drop (4 + 4 * words.length) = b :: Pt := by
    have hsh : appendBEDEHeader words (b :: Pt) =
        ([190, 222, words.length / 256, words.length % 256] ++ words.flatten) ++ (b :: Pt) := by
      simp [appendBEDEHeader]
    rw [hsh, show 4 + 4 * words.length =
        ([190, 222, words.length / 256, words.length % 256] ++ words.flatten).length from
          by simp only [List.length_append, List.length_cons, List.length_nil, hflatlen]; try omega,
      List.drop_left]
  have hcz : countZeros (b :: Pt) = 0 := by simp [countZeros, hb]
  have hlen5 : 4 < (appendBEDEHeader words (b :: Pt)).length := by
    simp only [appendBEDEHeader, List.length_cons, List.length_append]
    omega
  simp only [extractOpusFromRTP]
  rw [if_neg (by simp [appendBEDEHeader]),
    if_pos ⟨hlen5, by simp [appendBEDEHeader], by simp [appendBEDEHeader]⟩,
    hread, hskip, hdrop, hcz, Nat.add_zero, hdrop]

/-- C6 witness: the amended round trip evaluated on a payload with nonzero
first byte and a one-word extension whose first byte has low nibble 0. -/
theorem c6_strip_amended_witness :
    ([7, 0, 1] : List Nat).head? = some 7 ∧
    extractOpusFromRTP (appendBEDEHeader [[16, 170, 0, 0]] [7, 0, 1]) = [7, 0, 1] :=
  ⟨rfl, c6_strip_amended [[16, 170, 0, 0]] [7, 0, 1] 7 (by decide) (by decide)
    rfl (by decide)⟩
